import Mathlib

/-!
# Verification of the chat service core (problem generation, grading, progress, achievements)

Shallow embedding of `src/backend/main/src/chat/chat.service.ts` (current
revision first; the older revision concatenated in the same file and in
`src/unnamed/part_000` is embedded separately where a claim cites it).

Persistent tables are modelled as Lean lists kept newest-first: a Prisma
`create` prepends, so `findFirst` with `orderBy createdAt desc` is `List.find?`.
Auto-assigned numeric row ids come from a `nextId` counter carried in the store.
JavaScript numbers are modelled as `ℚ`; a float division whose divisor is zero
yields a non-finite value (NaN or ±Infinity) and is modelled as `none`.
-/

namespace ChatService

/-- A calendar day as the triple of components the code reads off a JS `Date`
(`getFullYear`, `getMonth`, `getDate`). -/
structure Day where
  year : Int
  month : Int
  date : Int
deriving DecidableEq, Repr

/-- The calendar-day equality test of `checkProgress` (lines 222–226):
`getDate`, `getMonth` and `getFullYear` compared componentwise. -/
def sameDay (a b : Day) : Bool :=
  a.date == b.date && a.month == b.month && a.year == b.year

/-- A row of the `users` table (the fields the service reads). -/
structure Users where
  id : String
  birth : Day
  interest : String
deriving DecidableEq, Repr

/-- A row of the `solveHistories` table (an Attempt). -/
structure SolveHistory where
  userId : String
  problemId : String
  isCorrect : Bool
  feedback : String
  voicePath : String
deriving DecidableEq, Repr

/-- A row of the `problems` table.  `isCorrect` exists only in the older
schema, where `generateFeedback` wrote the grade onto the problem; the current
revision never sets it, hence `Option`. -/
structure Problem where
  id : String
  userId : String
  question : String
  answer : String
  imagePath : String
  wholeText : String
  isCorrect : Option Bool
deriving DecidableEq, Repr

/-- A row of the `progresses` table (a ProgressBucket).  `createdAt` keeps the
calendar day; recency ordering is positional (newest first in the list). -/
structure Progress where
  id : Nat
  userId : String
  correct : Nat
  total : Nat
  createdAt : Day
deriving DecidableEq, Repr

/-- A row of the `achievements` table. -/
structure Achievement where
  id : Nat
  title : String
  description : String
  level : ℚ
deriving DecidableEq, Repr

/-- A row of the `userAchievements` link table. -/
structure UserAchievement where
  userId : String
  achievementId : Nat
deriving DecidableEq, Repr

/-- The record store: every table the service touches, each list newest-first,
plus the counter handing out fresh numeric row ids. -/
structure DB where
  users : List Users
  solveHistories : List SolveHistory
  problems : List Problem
  progresses : List Progress
  achievements : List Achievement
  userAchievements : List UserAchievement
  nextId : Nat
deriving DecidableEq, Repr

/-- Runtime outcomes of a service call that does not return normally. -/
inductive RunErr where
  /-- `throw new Error('Problem not found')`. -/
  | notFound : RunErr
  /-- `InternalServerErrorException` wrapping an upstream failure's message. -/
  | upstream : String → RunErr
  /-- A JS `TypeError` from dereferencing a `null` query result. -/
  | nullDeref : RunErr
deriving DecidableEq, Repr

/-- Outcome of the single-attempt HTTP call to the inference service, a
parameter of the embedding (the transport is external). -/
inductive Upstream (α : Type) where
  | success : α → Upstream α
  | failure : String → Upstream α
deriving DecidableEq, Repr

/-- The `reduce` at lines 36–39 / 240–243: count of correct rows. -/
def countCorrect (l : List SolveHistory) : Nat :=
  l.foldl (fun acc h => if h.isCorrect then acc + 1 else acc) 0

/-- `checkProgress(userId, isCorrect)` (lines 206–256).  Fetches the user
(dereferencing a missing user faults), takes the most recent progress bucket,
and either: does nothing when there is none; updates it in place when it was
created today; or creates a fresh bucket seeded with the lifetime aggregate
over the whole `solveHistories` table for the user. -/
def checkProgress (db : DB) (cur : Day) (userId : String) (isCorrect : Bool) :
    Except RunErr DB :=
  match db.users.find? (fun u => u.id == userId) with
  | none => .error .nullDeref
  | some user =>
    match db.progresses.find? (fun p => p.userId == user.id) with
    | none => .ok db
    | some prog =>
      if sameDay prog.createdAt cur then
        .ok { db with
          progresses := db.progresses.map (fun p =>
            if p.id == prog.id then
              { p with
                correct := if isCorrect then p.correct + 1 else p.correct,
                total := p.total + 1 }
            else p) }
      else
        .ok { db with
          progresses :=
            { id := db.nextId,
              userId := user.id,
              correct := countCorrect (db.solveHistories.filter
                (fun h => h.userId == user.id)),
              total := (db.solveHistories.filter
                (fun h => h.userId == user.id)).length,
              createdAt := cur } :: db.progresses,
          nextId := db.nextId + 1 }

/-- `(x).toFixed(2)` on the percentage, modelled as the rational rounded to two
decimal places (the exact decimal rendering of the display strings is
inessential to every claim). -/
def toFixed2 (x : ℚ) : ℚ :=
  (round (x * 100) : ℤ) / 100

/-- Achievement title template (line 176/189). -/
def achTitle (r : ℚ) : String :=
  "정답률 " ++ toString (toFixed2 (r * 100)) ++ "% 달성"

/-- Achievement description template (line 177/190). -/
def achDescription (r : ℚ) : String :=
  "정답률 최고기록 달성! 주어진 문제의 " ++ toString (toFixed2 (r * 100))
    ++ "% 정답을 맞췄어요."

/-- The achievements reachable from the user's `userAchievements` links
(Prisma `findFirst where userId include achievement`). -/
def userAchList (db : DB) (uid : String) : List Achievement :=
  (db.userAchievements.filter (fun l => l.userId == uid)).filterMap
    (fun l => db.achievements.find? (fun a => a.id == l.achievementId))

/-- `orderBy achievement.level desc` followed by `findFirst`: the
highest-level achievement in the list (first one on ties). -/
def findTop : List Achievement → Option Achievement
  | [] => none
  | a :: rest =>
    match findTop rest with
    | none => some a
    | some b => if a.level < b.level then some b else some a

/-- The `achievements.update where id` write (lines 173–180) as the map it
performs on the table: the row with the matching id gets the templated title
and description and the new level; every other row is untouched. -/
def updAch (i : Nat) (r : ℚ) (a : Achievement) : Achievement :=
  if a.id == i then
    { a with title := achTitle r, description := achDescription r, level := r }
  else a

/-- `checkAndCreateAchievement(userId, newAnswerRate)` (lines 152–204).
If the user's highest achievement exists and the new rate beats its level,
update that row in place; if it exists and the rate does not beat it, do
nothing; if none exists, create a fresh achievement at the new rate and link
it to the user. -/
def checkAndCreateAchievement (db : DB) (uid : String) (newAnswerRate : ℚ) : DB :=
  match findTop (userAchList db uid) with
  | some ach =>
    if newAnswerRate > ach.level then
      { db with
        achievements := db.achievements.map (updAch ach.id newAnswerRate) }
    else db
  | none =>
    { db with
      achievements :=
        { id := db.nextId,
          title := achTitle newAnswerRate,
          description := achDescription newAnswerRate,
          level := newAnswerRate } :: db.achievements,
      userAchievements :=
        { userId := uid, achievementId := db.nextId } :: db.userAchievements,
      nextId := db.nextId + 1 }

/-- The level of the user's stored best achievement, if any. -/
def userLevel (db : DB) (uid : String) : Option ℚ :=
  (findTop (userAchList db uid)).map (fun a => a.level)

/-- "max of the previous stored level (if any) and the new rate". -/
def optMax : Option ℚ → ℚ → ℚ
  | none, r => r
  | some l, r => max l r

/-- An ordered sequence of sequential `checkAndCreateAchievement` calls for
one user, applied to the store in call order. -/
def runEval (db : DB) (uid : String) (rs : List ℚ) : DB :=
  rs.foldl (fun d r => checkAndCreateAchievement d uid r) db

/-- Store sanity invariant for the achievement tables: every link points below
the fresh-id counter (freshly created ids can never collide with or be
captured by an existing link). -/
def AchWF (db : DB) : Prop :=
  ∀ l ∈ db.userAchievements, l.achievementId < db.nextId

/-- Payload of a successful `generate_problem` upstream response
(`response.data.data`, line 75–76). -/
structure ProblemPayload where
  id : String
  question : String
  answer : String
  image : String
  image_path : String
  whole_text : String
deriving DecidableEq, Repr

/-- The learner profile (`data.userInfo`, lines 58–67) as far as its fields
are computed by this core: age in months, accuracy (`none` models a non-finite
JS number), interests and the placeholder language level.  `languageGoals` is
the constant `null` and the feedback field is opaque external data; neither is
modelled. -/
structure Profile where
  age : Nat
  accuracy : Option ℚ
  interests : String
  languageLevel : String
deriving DecidableEq, Repr

/-- What a run of `generateProblem` produces: the value returned (a JS object
literal modelled as an ordered key–value list) or the error thrown, the store
afterwards, whether the inference call was issued, and the profile that was
sent upstream (`none` when execution faulted before the call). -/
structure GenResult where
  result : Except RunErr (List (String × String))
  db : DB
  inferenceCalled : Bool
  sentProfile : Option Profile
deriving Repr

/-- The guarded accuracy of the current revision (line 43):
`total === 0 ? 0 : correct / total`. -/
def answerRateOf (histories : List SolveHistory) : ℚ :=
  if histories.length = 0 then 0
  else (countCorrect histories : ℚ) / (histories.length : ℚ)

/-- `generateProblem(userId)`, current revision (lines 21–94).  The user row is
dereferenced without a null check, so a missing user faults before anything
else happens.  The achievement check runs (and is awaited) before the
inference call; the problem row is created only on upstream success; the value
returned is the object literal `{problemId, question, image}`. -/
def generateProblem (db : DB) (cur : Day) (userId : String)
    (upstream : Upstream ProblemPayload) : GenResult :=
  match db.users.find? (fun u => u.id == userId) with
  | none => ⟨.error .nullDeref, db, false, none⟩
  | some user =>
    let month := ((cur.year - user.birth.year) * 12
      + (cur.month - user.birth.month)).natAbs
    let histories := db.solveHistories.filter (fun h => h.userId == user.id)
    let answerRate := answerRateOf histories
    let profile : Profile := ⟨month, some answerRate, user.interest, "초급"⟩
    let db1 := checkAndCreateAchievement db user.id answerRate
    match upstream with
    | .failure msg => ⟨.error (.upstream msg), db1, true, some profile⟩
    | .success p =>
      ⟨.ok [("problemId", p.id), ("question", p.question), ("image", p.image)],
        { db1 with
          problems :=
            { id := p.id, userId := user.id, question := p.question,
              answer := p.answer, imagePath := p.image_path,
              wholeText := p.whole_text, isCorrect := none } :: db1.problems },
        true, some profile⟩

/-- JS float division: defined when the divisor is nonzero; a zero divisor
yields NaN or ±Infinity, modelled as `none`. -/
def jsDiv (a b : ℚ) : Option ℚ :=
  if b = 0 then none else some (a / b)

/-- The accuracy of the older revision (lines 300–302): the correct count over
the 20 most recent problems divided by their number, with no zero guard
(`cur.isCorrect ? 1 : 0` treats a null grade as 0). -/
def take20AnswerRate (problems : List Problem) : Option ℚ :=
  jsDiv
    (problems.foldl (fun acc p => if p.isCorrect == some true then acc + 1 else acc) 0 : ℚ)
    (problems.length : ℚ)

/-- `generateProblem(userId)`, older revision (lines 283–344): accuracy over
the 20 most recent problems with no zero guard, no achievement check, and a
return value of only `{question, image}`. -/
def generateProblemOld (db : DB) (cur : Day) (userId : String)
    (upstream : Upstream ProblemPayload) : GenResult :=
  match db.users.find? (fun u => u.id == userId) with
  | none => ⟨.error .nullDeref, db, false, none⟩
  | some user =>
    let month := ((cur.year - user.birth.year) * 12
      + (cur.month - user.birth.month)).natAbs
    let probs := (db.problems.filter (fun p => p.userId == user.id)).take 20
    let answerRate := take20AnswerRate probs
    let profile : Profile := ⟨month, answerRate, user.interest, "초급"⟩
    match upstream with
    | .failure msg => ⟨.error (.upstream msg), db, true, some profile⟩
    | .success p =>
      ⟨.ok [("question", p.question), ("image", p.image)],
        { db with
          problems :=
            { id := p.id, userId := user.id, question := p.question,
              answer := p.answer, imagePath := p.image_path,
              wholeText := p.whole_text, isCorrect := none } :: db.problems },
        true, some profile⟩

/-- Payload of a successful `generate_feedback` upstream response
(`response.data.data`, lines 133–135). -/
structure FeedbackPayload where
  is_correct : Bool
  feedback : String
  voice_path : String
deriving DecidableEq, Repr

/-- What a run of `generateFeedback` produces: the returned grading payload or
the thrown error, the store afterwards, and which effects were issued. -/
structure FbResult where
  result : Except RunErr FeedbackPayload
  db : DB
  inferenceCalled : Bool
  attemptIssued : Bool
  progressIssued : Bool
deriving Repr

/-- `generateFeedback(problemId, user, voice)` (lines 96–144).  The problem is
fetched filtered by id AND owning user; a miss throws before any upstream
traffic.  On upstream success the attempt write and the `checkProgress` call
are issued without `await` (fire-and-forget): their success or failure —
modelled by the parameters `attemptOk` and `progressOk` — cannot reach the
`catch`, so the response is the upstream payload regardless.  A lost write
leaves the store as it was; an unawaited `checkProgress` rejection is likewise
swallowed. -/
def generateFeedback (db : DB) (cur : Day) (userId problemId : String)
    (upstream : Upstream FeedbackPayload) (attemptOk progressOk : Bool) :
    FbResult :=
  match db.problems.find? (fun p => p.id == problemId && p.userId == userId) with
  | none => ⟨.error .notFound, db, false, false, false⟩
  | some _ =>
    match upstream with
    | .failure msg => ⟨.error (.upstream msg), db, true, false, false⟩
    | .success fp =>
      let db1 :=
        if attemptOk then
          { db with
            solveHistories :=
              { userId := userId, problemId := problemId,
                isCorrect := fp.is_correct, feedback := fp.feedback,
                voicePath := fp.voice_path } :: db.solveHistories }
        else db
      let db2 :=
        if progressOk then
          match checkProgress db1 cur userId fp.is_correct with
          | .ok d => d
          | .error _ => db1
        else db1
      ⟨.ok fp, db2, true, true, true⟩

/-! Concrete stores and payloads used to evaluate the theorems on explicit
inputs. -/

/-- A concrete user. -/
def u1 : Users :=
  { id := "u1", birth := { year := 2020, month := 0, date := 15 },
    interest := "동물" }

/-- A concrete "today". -/
def dToday : Day := { year := 2026, month := 9, date := 11 }

/-- A concrete day one day earlier than `dToday`. -/
def dYesterday : Day := { year := 2026, month := 9, date := 10 }

/-- A store holding just the user `u1`: no attempts, problems, buckets,
achievements or links. -/
def db0 : DB :=
  { users := [u1], solveHistories := [], problems := [], progresses := [],
    achievements := [], userAchievements := [], nextId := 1 }

/-- A concrete problem owned by `u1`. -/
def p1 : Problem :=
  { id := "p1", userId := "u1", question := "q", answer := "ans",
    imagePath := "ip", wholeText := "wt", isCorrect := none }

/-- A concrete successful `generate_problem` upstream payload. -/
def payP : ProblemPayload :=
  { id := "pp", question := "qq", answer := "aa", image := "im",
    image_path := "imp", whole_text := "wtx" }

/-- A concrete successful `generate_feedback` upstream payload. -/
def payF : FeedbackPayload :=
  { is_correct := true, feedback := "good", voice_path := "vp" }

/-- A store in which `u1` already holds an achievement at level 0. -/
def dbAch : DB :=
  { db0 with
    achievements := [{ id := 5, title := "t", description := "d", level := 0 }],
    userAchievements := [{ userId := "u1", achievementId := 5 }],
    nextId := 6 }

/-- A store whose most recent bucket for `u1` is from yesterday, with one
correct attempt on record. -/
def dbBucketOld : DB :=
  { db0 with
    solveHistories :=
      [{ userId := "u1", problemId := "p1", isCorrect := true,
         feedback := "fb", voicePath := "vp" }],
    progresses :=
      [{ id := 3, userId := "u1", correct := 1, total := 1,
         createdAt := dYesterday }],
    nextId := 4 }

/-- A store whose most recent bucket for `u1` is from today. -/
def dbBucketToday : DB :=
  { db0 with
    progresses :=
      [{ id := 3, userId := "u1", correct := 1, total := 2,
         createdAt := dToday }],
    nextId := 4 }

/-- A store holding the problem `p1` owned by `u1`. -/
def dbProb : DB := { db0 with problems := [p1] }

theorem countCorrect_eq_filter_length (l : List SolveHistory) :
    countCorrect l = (l.filter (fun h => h.isCorrect)).length := by
  have aux : ∀ (l : List SolveHistory) (acc : Nat),
      l.foldl (fun acc h => if h.isCorrect then acc + 1 else acc) acc =
        acc + (l.filter (fun h => h.isCorrect)).length := by
    intro l
    induction l with
    | nil => intro acc; simp
    | cons h t ih =>
      intro acc
      by_cases hc : h.isCorrect
      · simp [List.foldl, hc, ih, Nat.add_comm, Nat.add_assoc, Nat.add_left_comm]
      · simp [List.foldl, hc, ih]
  simpa using aux l 0

theorem updAch_id (i : Nat) (r : ℚ) (a : Achievement) : (updAch i r a).id = a.id := by
  unfold updAch; split <;> rfl

theorem updAch_level (i : Nat) (r : ℚ) (a : Achievement) :
    (updAch i r a).level = if a.id = i then r else a.level := by
  unfold updAch
  by_cases h : a.id = i <;> simp [h]

theorem find?_id_map_updAch (i : Nat) (r : ℚ) (x : Nat) (l : List Achievement) :
    (l.map (updAch i r)).find? (fun a => a.id == x) =
      (l.find? (fun a => a.id == x)).map (updAch i r) := by
  rw [List.find?_map]
  have hp : ((fun a : Achievement => a.id == x) ∘ updAch i r) =
      fun a : Achievement => a.id == x := by
    funext a
    simp [Function.comp, updAch_id]
  rw [hp]

theorem userAchList_map_updAch (db : DB) (uid : String) (i : Nat) (r : ℚ) :
    userAchList { db with achievements := db.achievements.map (updAch i r) } uid
      = (userAchList db uid).map (updAch i r) := by
  simp only [userAchList]
  rw [List.map_filterMap]
  simp only [find?_id_map_updAch]

theorem findTop_cons (a : Achievement) (rest : List Achievement) :
    findTop (a :: rest) = match findTop rest with
      | none => some a
      | some b => if a.level < b.level then some b else some a := rfl

theorem findTop_eq_none {l : List Achievement} : findTop l = none ↔ l = [] := by
  cases l with
  | nil => simp [findTop]
  | cons a rest =>
    rw [findTop_cons]
    cases hr : findTop rest with
    | none => simp
    | some b =>
      by_cases hab : a.level < b.level
      · simp [hab]
      · simp [hab]

theorem findTop_mem {l : List Achievement} :
    ∀ {a : Achievement}, findTop l = some a → a ∈ l := by
  induction l with
  | nil => intro a h; simp [findTop] at h
  | cons b rest ih =>
    intro a h
    rw [findTop_cons] at h
    cases hr : findTop rest with
    | none =>
      simp only [hr, Option.some.injEq] at h
      subst h
      exact List.mem_cons_self _ _
    | some c =>
      simp only [hr] at h
      by_cases hbc : b.level < c.level
      · rw [if_pos hbc] at h
        injection h with h
        subst h
        exact List.mem_cons_of_mem _ (ih hr)
      · rw [if_neg hbc] at h
        injection h with h
        subst h
        exact List.mem_cons_self _ _

theorem findTop_is_max {l : List Achievement} :
    ∀ {a : Achievement}, findTop l = some a → ∀ b ∈ l, b.level ≤ a.level := by
  induction l with
  | nil => intro a _ b hb; simp at hb
  | cons c rest ih =>
    intro a h b hb
    rw [findTop_cons] at h
    cases hr : findTop rest with
    | none =>
      simp only [hr, Option.some.injEq] at h
      subst h
      rcases List.mem_cons.mp hb with rfl | hb'
      · exact le_refl _
      · rw [findTop_eq_none.mp hr] at hb'
        simp at hb'
    | some c' =>
      simp only [hr] at h
      by_cases hcc : c.level < c'.level
      · rw [if_pos hcc] at h
        injection h with h
        subst h
        rcases List.mem_cons.mp hb with rfl | hb'
        · exact le_of_lt hcc
        · exact ih hr b hb'
      · rw [if_neg hcc] at h
        injection h with h
        subst h
        rcases List.mem_cons.mp hb with rfl | hb'
        · exact le_refl _
        · exact le_trans (ih hr b hb') (not_lt.mp hcc)

theorem userLevel_step (db : DB) (uid : String) (r : ℚ) (hwf : AchWF db) :
    userLevel (checkAndCreateAchievement db uid r) uid =
      some (optMax (userLevel db uid) r) := by
  unfold checkAndCreateAchievement
  cases htop : findTop (userAchList db uid) with
  | none =>
    dsimp only
    have hS : userAchList db uid = [] := findTop_eq_none.mp htop
    simp only [userAchList] at hS
    have hfil : ∀ l ∈ db.userAchievements.filter (fun l => l.userId == uid),
        db.achievements.find? (fun a => a.id == l.achievementId) = none :=
      List.filterMap_eq_nil_iff.mp hS
    have hnew : userAchList
        { db with
          achievements :=
            { id := db.nextId, title := achTitle r,
              description := achDescription r, level := r } :: db.achievements,
          userAchievements :=
            { userId := uid, achievementId := db.nextId } :: db.userAchievements,
          nextId := db.nextId + 1 } uid =
        [{ id := db.nextId, title := achTitle r,
           description := achDescription r, level := r }] := by
      simp only [userAchList]
      have htail : (db.userAchievements.filter (fun l => l.userId == uid)).filterMap
          (fun l =>
            ({ id := db.nextId, title := achTitle r,
               description := achDescription r, level := r } :: db.achievements).find?
              (fun a => a.id == l.achievementId)) = [] := by
        rw [List.filterMap_eq_nil_iff]
        intro l hl
        have hlt : l.achievementId < db.nextId :=
          hwf l (List.mem_of_mem_filter hl)
        rw [List.find?_cons_of_neg]
        · exact hfil l hl
        · simp
          omega
      rw [List.filter_cons_of_pos (by simp)]
      simp [htail]
    simp only [userLevel, hnew, htop]
    rfl
  | some ach =>
    dsimp only
    by_cases hgt : r > ach.level
    · rw [if_pos hgt]
      have hmemS : ach ∈ userAchList db uid := findTop_mem htop
      have hmax : ∀ b ∈ userAchList db uid, b.level ≤ ach.level :=
        findTop_is_max htop
      have hne : (userAchList db uid).map (updAch ach.id r) ≠ [] := by
        intro hc
        rw [List.map_eq_nil_iff] at hc
        rw [hc] at htop
        simp [findTop] at htop
      obtain ⟨t, ht⟩ :
          ∃ t, findTop ((userAchList db uid).map (updAch ach.id r)) = some t := by
        cases hft : findTop ((userAchList db uid).map (updAch ach.id r)) with
        | none => exact absurd (findTop_eq_none.mp hft) hne
        | some t => exact ⟨t, rfl⟩
      obtain ⟨b, hbS, hbt⟩ := List.mem_map.mp (findTop_mem ht)
      have htle : t.level ≤ r := by
        rw [← hbt, updAch_level]
        by_cases hb : b.id = ach.id
        · simp [hb]
        · simp only [hb, if_false]
          exact le_trans (hmax b hbS) (le_of_lt hgt)
      have hrle : r ≤ t.level := by
        have hmem2 : updAch ach.id r ach ∈ (userAchList db uid).map (updAch ach.id r) :=
          List.mem_map_of_mem _ hmemS
        have hle2 := findTop_is_max ht _ hmem2
        rwa [updAch_level, if_pos rfl] at hle2
      have htr : t.level = r := le_antisymm htle hrle
      simp only [userLevel, userAchList_map_updAch, ht, Option.map_some', htr,
        htop, optMax]
      rw [max_eq_right (le_of_lt hgt)]
    · rw [if_neg hgt]
      simp only [userLevel, htop, Option.map_some', optMax]
      rw [max_eq_left (not_lt.mp hgt)]

theorem achWF_step (db : DB) (uid : String) (r : ℚ) (hwf : AchWF db) :
    AchWF (checkAndCreateAchievement db uid r) := by
  unfold checkAndCreateAchievement
  cases htop : findTop (userAchList db uid) with
  | none =>
    dsimp only
    intro l hl
    rcases List.mem_cons.mp hl with rfl | hl'
    · exact Nat.lt_succ_self _
    · exact Nat.lt_succ_of_lt (hwf l hl')
  | some ach =>
    dsimp only
    by_cases hgt : r > ach.level
    · rw [if_pos hgt]
      exact hwf
    · rw [if_neg hgt]
      exact hwf

theorem userLevel_runEval_mono (uid : String) (rs : List ℚ) :
    ∀ db : DB, AchWF db → ∀ x : ℚ, userLevel db uid = some x →
      ∃ y : ℚ, userLevel (runEval db uid rs) uid = some y ∧ x ≤ y := by
  induction rs with
  | nil =>
    intro db _ x hx
    exact ⟨x, hx, le_refl x⟩
  | cons r rest ih =>
    intro db hwf x hx
    have h1 := userLevel_step db uid r hwf
    rw [hx] at h1
    obtain ⟨y, hy, hle⟩ := ih (checkAndCreateAchievement db uid r)
      (achWF_step db uid r hwf) (optMax (some x) r) h1
    refine ⟨y, ?_, ?_⟩
    · simpa [runEval] using hy
    · exact le_trans (le_max_left x r) hle

/-- C1 (counterexample): in the older revision (lines 300–302) the accuracy
on an empty attempt history is `problems.reduce(...) / problems.length` with
no zero guard; for the user `u1` of `db0`, who has no problems, the profile
sent upstream carries a non-finite accuracy (`none`, the image of 0/0), not
exactly 0. -/
theorem generateProblemOld_accuracy_NaN_on_empty_history :
    ((generateProblemOld db0 dToday "u1" (Upstream.success payP)).sentProfile.map
      Profile.accuracy) = some none ∧
    ((generateProblemOld db0 dToday "u1" (Upstream.success payP)).sentProfile.map
      Profile.accuracy) ≠ some (some 0) := by
  have h1 : ((generateProblemOld db0 dToday "u1"
      (Upstream.success payP)).sentProfile.map Profile.accuracy) =
      some none := rfl
  refine ⟨h1, ?_⟩
  rw [h1]
  simp

/-- C1 (amended): in the current revision (lines 41–43) the accuracy
`generateProblem` computes for a user with an empty attempt history is exactly
0 — the `total === 0` guard means no division by zero is reached; in the older
revision (lines 300–302) the same situation divides by a zero length and the
accuracy sent upstream is the non-finite `none`, not 0. -/
theorem generateProblem_accuracy_zero_on_empty_history (db : DB) (cur : Day)
    (uid : String) (user : Users)
    (hu : db.users.find? (fun u => u.id == uid) = some user) :
    (db.solveHistories.filter (fun h => h.userId == user.id) = [] →
      ∀ up : Upstream ProblemPayload,
        ((generateProblem db cur uid up).sentProfile.map Profile.accuracy) =
          some (some 0)) ∧
    (db.problems.filter (fun p => p.userId == user.id) = [] →
      ∀ up : Upstream ProblemPayload,
        ((generateProblemOld db cur uid up).sentProfile.map Profile.accuracy) =
          some none) := by
  constructor
  · intro hfil up
    unfold generateProblem
    cases up <;> simp [hu, hfil, answerRateOf]
  · intro hfil up
    unfold generateProblemOld
    cases up <;> simp [hu, hfil, take20AnswerRate, jsDiv]

/-- Witness for C1 at the concrete store `db0`. -/
theorem generateProblem_accuracy_zero_on_empty_history_witness :
    (db0.users.find? (fun u => u.id == "u1") = some u1 ∧
     db0.solveHistories.filter (fun h => h.userId == u1.id) = []) ∧
    ((generateProblem db0 dToday "u1" (Upstream.success payP)).sentProfile.map
      Profile.accuracy) = some (some 0) :=
  ⟨⟨rfl, rfl⟩,
    (generateProblem_accuracy_zero_on_empty_history db0 dToday "u1" u1 rfl).1
      rfl (Upstream.success payP)⟩

/-- C2: for any store satisfying the freshness invariant, a
`checkAndCreateAchievement` call leaves the user's stored achievement level at
the max of its previous value (if any) and the call's rate, and across any
ordered sequence of sequential calls the stored level never decreases. -/
theorem achievement_level_monotone (db : DB) (uid : String) (hwf : AchWF db) :
    (∀ r : ℚ, userLevel (checkAndCreateAchievement db uid r) uid =
        some (optMax (userLevel db uid) r)) ∧
    (∀ (rs : List ℚ) (x : ℚ), userLevel db uid = some x →
      ∃ y : ℚ, userLevel (runEval db uid rs) uid = some y ∧ x ≤ y) :=
  ⟨fun r => userLevel_step db uid r hwf,
   fun rs x hx => userLevel_runEval_mono uid rs db hwf x hx⟩

/-- Witness for C2 at the concrete store `dbAch` (level 0 on record, rate 1). -/
theorem achievement_level_monotone_witness :
    AchWF dbAch ∧
    userLevel (checkAndCreateAchievement dbAch "u1" 1) "u1" =
      some (optMax (userLevel dbAch "u1") 1) :=
  ⟨(by decide :
      ∀ l ∈ dbAch.userAchievements, l.achievementId < dbAch.nextId),
   (achievement_level_monotone dbAch "u1"
      (by decide :
        ∀ l ∈ dbAch.userAchievements, l.achievementId < dbAch.nextId)).1 1⟩

/-- C3: when the most recent bucket is from another (in particular an
earlier) calendar day, `checkProgress` creates a bucket for today seeded with
the lifetime aggregate over the user's whole attempt history — count of
correct attempts and count of all attempts — and the prior buckets are left
exactly as they were (the new row is prepended, nothing is rewritten). -/
theorem checkProgress_rollover_lifetime_aggregate (db : DB) (cur : Day)
    (uid : String) (user : Users) (prog : Progress) (b : Bool)
    (hu : db.users.find? (fun u => u.id == uid) = some user)
    (hp : db.progresses.find? (fun p => p.userId == user.id) = some prog)
    (hday : sameDay prog.createdAt cur = false) :
    checkProgress db cur uid b =
      .ok { db with
        progresses :=
          { id := db.nextId, userId := user.id,
            correct := ((db.solveHistories.filter
                (fun h => h.userId == user.id)).filter
              (fun h => h.isCorrect)).length,
            total := (db.solveHistories.filter
              (fun h => h.userId == user.id)).length,
            createdAt := cur } :: db.progresses,
        nextId := db.nextId + 1 } := by
  unfold checkProgress
  simp [hu, hp, hday, countCorrect_eq_filter_length]

/-- Witness for C3 at the concrete store `dbBucketOld` (yesterday's bucket,
one correct lifetime attempt). -/
theorem checkProgress_rollover_lifetime_aggregate_witness :
    (dbBucketOld.users.find? (fun u => u.id == "u1") = some u1 ∧
     dbBucketOld.progresses.find? (fun p => p.userId == u1.id) =
       some { id := 3, userId := "u1", correct := 1, total := 1,
              createdAt := dYesterday } ∧
     sameDay dYesterday dToday = false) ∧
    checkProgress dbBucketOld dToday "u1" false =
      .ok { dbBucketOld with
        progresses :=
          { id := dbBucketOld.nextId, userId := u1.id,
            correct := ((dbBucketOld.solveHistories.filter
                (fun h => h.userId == u1.id)).filter
              (fun h => h.isCorrect)).length,
            total := (dbBucketOld.solveHistories.filter
              (fun h => h.userId == u1.id)).length,
            createdAt := dToday } :: dbBucketOld.progresses,
        nextId := dbBucketOld.nextId + 1 } :=
  ⟨⟨rfl, rfl, rfl⟩,
    checkProgress_rollover_lifetime_aggregate dbBucketOld dToday "u1" u1
      { id := 3, userId := "u1", correct := 1, total := 1,
        createdAt := dYesterday } false rfl rfl rfl⟩

/-- C4: `checkProgress` with no existing bucket for the user changes nothing;
with a bucket created today it rewrites exactly that row — total up by one,
correct up by one iff the attempt was correct — and the row count of the
table is unchanged (no new bucket row). -/
theorem checkProgress_noop_and_inplace (db : DB) (cur : Day) (uid : String)
    (user : Users) (b : Bool)
    (hu : db.users.find? (fun u => u.id == uid) = some user) :
    (db.progresses.find? (fun p => p.userId == user.id) = none →
      checkProgress db cur uid b = .ok db) ∧
    (∀ prog : Progress,
      db.progresses.find? (fun p => p.userId == user.id) = some prog →
      sameDay prog.createdAt cur = true →
      checkProgress db cur uid b =
        .ok { db with
          progresses := db.progresses.map (fun p =>
            if p.id == prog.id then
              { p with
                correct := if b then p.correct + 1 else p.correct,
                total := p.total + 1 }
            else p) } ∧
      (db.progresses.map (fun p =>
          if p.id == prog.id then
            { p with
              correct := if b then p.correct + 1 else p.correct,
              total := p.total + 1 }
          else p)).length = db.progresses.length) := by
  constructor
  · intro hp
    unfold checkProgress
    simp [hu, hp]
  · intro prog hp hday
    refine ⟨?_, List.length_map _ _⟩
    unfold checkProgress
    simp [hu, hp, hday]

/-- Witness for C4 at the concrete store `dbBucketToday` (today's bucket,
a correct attempt recorded twice the same day would keep one row). -/
theorem checkProgress_noop_and_inplace_witness :
    (dbBucketToday.users.find? (fun u => u.id == "u1") = some u1 ∧
     dbBucketToday.progresses.find? (fun p => p.userId == u1.id) =
       some { id := 3, userId := "u1", correct := 1, total := 2,
              createdAt := dToday } ∧
     sameDay dToday dToday = true) ∧
    checkProgress dbBucketToday dToday "u1" true =
      .ok { dbBucketToday with
        progresses := dbBucketToday.progresses.map (fun p =>
          if p.id == 3 then
            { p with
              correct := if true then p.correct + 1 else p.correct,
              total := p.total + 1 }
          else p) } :=
  ⟨⟨rfl, rfl, rfl⟩,
    ((checkProgress_noop_and_inplace dbBucketToday dToday "u1" u1 true rfl).2
      { id := 3, userId := "u1", correct := 1, total := 2, createdAt := dToday }
      rfl rfl).1⟩

/-- C5: `generateFeedback` for a problem id that is not on record as owned by
the calling user fails with the not-found error, leaves the store untouched
(in particular creates no attempt row), and issues no inference call. -/
theorem generateFeedback_notFound (db : DB) (cur : Day) (uid pid : String)
    (up : Upstream FeedbackPayload) (aOk pOk : Bool)
    (h : db.problems.find? (fun p => p.id == pid && p.userId == uid) = none) :
    generateFeedback db cur uid pid up aOk pOk =
      ⟨.error .notFound, db, false, false, false⟩ := by
  unfold generateFeedback
  simp [h]

/-- Witness for C5: `db0` holds no problem "p9". -/
theorem generateFeedback_notFound_witness :
    db0.problems.find? (fun p => p.id == "p9" && p.userId == "u1") = none ∧
    generateFeedback db0 dToday "u1" "p9" (Upstream.success payF) true true =
      ⟨.error .notFound, db0, false, false, false⟩ :=
  ⟨rfl, generateFeedback_notFound db0 dToday "u1" "p9" (Upstream.success payF)
    true true rfl⟩

/-- C6: when the inference call of `generateFeedback` fails, the operation
fails with the upstream error, no attempt row is persisted and `checkProgress`
is never invoked — the store is returned exactly as it was. -/
theorem generateFeedback_upstream_failure_no_persist (db : DB) (cur : Day)
    (uid pid : String) (msg : String) (prob : Problem) (aOk pOk : Bool)
    (h : db.problems.find? (fun p => p.id == pid && p.userId == uid) =
      some prob) :
    generateFeedback db cur uid pid (.failure msg) aOk pOk =
      ⟨.error (.upstream msg), db, true, false, false⟩ := by
  unfold generateFeedback
  simp [h]

/-- Witness for C6 at the concrete store `dbProb`. -/
theorem generateFeedback_upstream_failure_no_persist_witness :
    dbProb.problems.find? (fun p => p.id == "p1" && p.userId == "u1") =
      some p1 ∧
    generateFeedback dbProb dToday "u1" "p1" (Upstream.failure "down") true true =
      ⟨.error (.upstream "down"), dbProb, true, false, false⟩ :=
  ⟨rfl, generateFeedback_upstream_failure_no_persist dbProb dToday "u1" "p1"
    "down" p1 true true rfl⟩

/-- C7 (code bug): `generateProblem` never checks the fetched user for null;
for a userId with no user row, `user.birth` is dereferenced on `null` and the
call dies with a TypeError (a generic 500), not the NotFound of the spec —
though it indeed performs no achievement update and issues no inference
call. -/
theorem generateProblem_missing_user_fault :
    generateProblem db0 dToday "ghost" (Upstream.success payP) =
      ⟨Except.error RunErr.nullDeref, db0, false, none⟩ ∧
    RunErr.nullDeref ≠ RunErr.notFound :=
  ⟨rfl, by decide⟩

/-- C8 (counterexample): a successful call of the older revision (lines
340–343) returns the object `{question, image}` — there is no problemId entry
in the returned value, against the claim that every successful return carries
one. -/
theorem generateProblemOld_return_lacks_problemId :
    (generateProblemOld db0 dToday "u1" (Upstream.success payP)).result =
      Except.ok [("question", "qq"), ("image", "im")] ∧
    List.lookup "problemId" [("question", "qq"), ("image", "im")] = none :=
  ⟨rfl, rfl⟩

/-- C8 (amended): the current revision returns exactly
`{problemId, question, image}` on success and the older revision exactly
`{question, image}`; in neither is there an answer entry, so the expected
answer is never part of the returned object. -/
theorem generateProblem_return_shape (db : DB) (cur : Day) (uid : String)
    (user : Users) (p : ProblemPayload)
    (hu : db.users.find? (fun u => u.id == uid) = some user) :
    (generateProblem db cur uid (.success p)).result =
      .ok [("problemId", p.id), ("question", p.question), ("image", p.image)] ∧
    List.lookup "answer"
      [("problemId", p.id), ("question", p.question), ("image", p.image)] =
      none ∧
    (generateProblemOld db cur uid (.success p)).result =
      .ok [("question", p.question), ("image", p.image)] ∧
    List.lookup "problemId" [("question", p.question), ("image", p.image)] =
      none ∧
    List.lookup "answer" [("question", p.question), ("image", p.image)] =
      none := by
  refine ⟨?_, rfl, ?_, rfl, rfl⟩
  · unfold generateProblem
    simp [hu]
  · unfold generateProblemOld
    simp [hu]

/-- Witness for C8 at the concrete store `db0` and payload `payP`. -/
theorem generateProblem_return_shape_witness :
    db0.users.find? (fun u => u.id == "u1") = some u1 ∧
    (generateProblem db0 dToday "u1" (Upstream.success payP)).result =
      .ok [("problemId", payP.id), ("question", payP.question),
           ("image", payP.image)] :=
  ⟨rfl, (generateProblem_return_shape db0 dToday "u1" u1 payP rfl).1⟩

/-- C9: `generateProblem` runs (and awaits) the achievement check before the
inference call, so when the upstream call fails the returned store is exactly
the store after `checkAndCreateAchievement` — any achievement creation or
level update persists although the call itself fails with the upstream error;
under the freshness invariant the persisted level is the max of the previous
level and the freshly computed accuracy. -/
theorem generateProblem_achievement_persists_on_failure (db : DB) (cur : Day)
    (uid : String) (user : Users) (msg : String)
    (hu : db.users.find? (fun u => u.id == uid) = some user) :
    (generateProblem db cur uid (.failure msg)).result =
      .error (.upstream msg) ∧
    (generateProblem db cur uid (.failure msg)).db =
      checkAndCreateAchievement db user.id
        (answerRateOf (db.solveHistories.filter
          (fun h => h.userId == user.id))) ∧
    (generateProblem db cur uid (.failure msg)).inferenceCalled = true ∧
    (AchWF db →
      userLevel ((generateProblem db cur uid (.failure msg)).db) user.id =
        some (optMax (userLevel db user.id)
          (answerRateOf (db.solveHistories.filter
            (fun h => h.userId == user.id))))) := by
  have hdb : (generateProblem db cur uid (.failure msg)).db =
      checkAndCreateAchievement db user.id
        (answerRateOf (db.solveHistories.filter
          (fun h => h.userId == user.id))) := by
    unfold generateProblem
    simp [hu]
  refine ⟨?_, hdb, ?_, ?_⟩
  · unfold generateProblem
    simp [hu]
  · unfold generateProblem
    simp [hu]
  · intro hwf
    rw [hdb]
    exact userLevel_step db user.id _ hwf

/-- Witness for C9 at the concrete store `db0`. -/
theorem generateProblem_achievement_persists_on_failure_witness :
    db0.users.find? (fun u => u.id == "u1") = some u1 ∧
    (generateProblem db0 dToday "u1" (Upstream.failure "down")).db =
      checkAndCreateAchievement db0 u1.id
        (answerRateOf (db0.solveHistories.filter
          (fun h => h.userId == u1.id))) :=
  ⟨rfl, (generateProblem_achievement_persists_on_failure db0 dToday "u1" u1
    "down" rfl).2.1⟩

/-- C10: on upstream success `generateFeedback` issues the attempt write and
the progress update fire-and-forget and answers with the upstream grading
payload; the returned value is the same whatever the fate of those two
persistence operations, so their failure is never surfaced to the caller. -/
theorem generateFeedback_fireforget_result_independent (db : DB) (cur : Day)
    (uid pid : String) (fp : FeedbackPayload) (prob : Problem)
    (h : db.problems.find? (fun p => p.id == pid && p.userId == uid) =
      some prob) :
    ∀ aOk pOk aOk2 pOk2 : Bool,
      (generateFeedback db cur uid pid (.success fp) aOk pOk).result =
        .ok fp ∧
      (generateFeedback db cur uid pid (.success fp) aOk pOk).result =
        (generateFeedback db cur uid pid (.success fp) aOk2 pOk2).result ∧
      (generateFeedback db cur uid pid (.success fp) aOk pOk).attemptIssued =
        true ∧
      (generateFeedback db cur uid pid (.success fp) aOk pOk).progressIssued =
        true := by
  intro aOk pOk aOk2 pOk2
  unfold generateFeedback
  simp [h]

/-- Witness for C10 at the concrete store `dbProb` with both persistence
operations failing. -/
theorem generateFeedback_fireforget_result_independent_witness :
    dbProb.problems.find? (fun p => p.id == "p1" && p.userId == "u1") =
      some p1 ∧
    (generateFeedback dbProb dToday "u1" "p1" (Upstream.success payF)
      false false).result = .ok payF :=
  ⟨rfl, (generateFeedback_fireforget_result_independent dbProb dToday "u1" "p1"
    payF p1 rfl false false true true).1⟩

end ChatService
